import Mathlib

/-!
Shallow embedding of the UNO backend's game core
(`backend/app/game_manager.py`, `backend/app/utils.py`,
`backend/app/websocket_utils.py`).

Cards are the two-part encoded strings the source uses (`"R-5"`,
`"G-D2"`, `"W-Wild"`, ...).  Python `dict`s (keyed by participant id)
are modelled as insertion-ordered association lists with
first-occurrence lookup, which matches `dict` semantics on the
duplicate-free key sets the code maintains.  Python code that can raise
(`list.pop` on an empty list, `seq[i]` out of range, `d[k]` on a missing
key) is modelled in the `Option` monad, `none` standing for the raised
exception.
-/

namespace UNO

/-- Python `d.get(k)` / `k in d`: first-occurrence lookup in an
insertion-ordered association list. -/
def dictGet {α : Type} (d : List (String × α)) (k : String) : Option α :=
  match d with
  | [] => none
  | (k', v) :: rest => if k' = k then some v else dictGet rest k

/-- Python `d.get(k, default)`. -/
def dictGetD {α : Type} (d : List (String × α)) (k : String) (dflt : α) : α :=
  (dictGet d k).getD dflt

/-- Python `k in d`. -/
def dictMem {α : Type} (d : List (String × α)) (k : String) : Bool :=
  (dictGet d k).isSome

/-- Python `d[k] = v`: replace the value at the first occurrence of `k`,
or append a new entry at the end (dicts preserve insertion order). -/
def dictSet {α : Type} (d : List (String × α)) (k : String) (v : α) :
    List (String × α) :=
  match d with
  | [] => [(k, v)]
  | (k', v') :: rest =>
      if k' = k then (k, v) :: rest else (k', v') :: dictSet rest k v

/-- Python `del d[k]` (a no-op when `k` is absent, callers guard with
`k in d`). -/
def dictDel {α : Type} (d : List (String × α)) (k : String) :
    List (String × α) :=
  match d with
  | [] => []
  | (k', v') :: rest =>
      if k' = k then rest else (k', v') :: dictDel rest k

/-! ### Card domain (`backend/app/utils.py`) -/

/-- `SPECIAL_CARDS: List[str] = ['S', 'R', 'D2']` -/
def SPECIAL_CARDS : List String := ["S", "R", "D2"]

/-- `WILD_CARDS: List[str] = ['W-Wild', 'W-W4']` -/
def WILD_CARDS : List String := ["W-Wild", "W-W4"]

/-- `REGULAR_CARDS: List[str] = ['R', 'B', 'G', 'Y']` -/
def REGULAR_CARDS : List String := ["R", "B", "G", "Y"]

/-- Python `s[i:]` on a string. -/
def strDrop (s : String) (n : Nat) : String :=
  String.mk (s.data.drop n)

/-- Python `pat in s` (substring containment), used by the wild-card
branch of `process_turn`. -/
def strContains (s pat : String) : Bool :=
  (List.range (s.data.length + 1)).any
    (fun i => pat.data.isPrefixOf (s.data.drop i))

/-- `retrieve_card_info(card) -> (card[0], card[-1])`: the color is the
first character, the "value" the LAST character of the encoded string
(so `"R-D2"` has value `"2"` and `"W-W4"` has value `"4"`).  Python
raises on the empty string; every card the game builds is nonempty. -/
def retrieve_card_info (card : String) : String × String :=
  (String.mk (card.data.take 1),
   String.mk (card.data.drop (card.data.length - 1)))

/-- The deck `create_deck` assembles before `random.shuffle`: for each
color one 0, two each of 1–9, two each of S/R/D2, plus four `W-Wild`
and four `W-W4`. A shuffled deck is any permutation of this list. -/
def create_deck_base : List String :=
  (REGULAR_CARDS.flatMap (fun color =>
    [color ++ "-0"]
    ++ (List.range' 1 9).flatMap
        (fun i => [color ++ "-" ++ toString i, color ++ "-" ++ toString i])
    ++ SPECIAL_CARDS.flatMap
        (fun sp => [color ++ "-" ++ sp, color ++ "-" ++ sp])))
  ++ (List.range 4).flatMap (fun _ => ["W-Wild", "W-W4"])

/-- `advance_turn_counter(current_player_index, player_count, is_clockwise)`
from `backend/app/utils.py`. -/
def advance_turn_counter (current_player_index : Nat) (player_count : Nat)
    (is_clockwise : Bool) : Nat :=
  if is_clockwise then
    if current_player_index = player_count - 1 then 0
    else current_player_index + 1
  else
    if current_player_index = 0 then player_count - 1
    else current_player_index - 1

/-! ### Room state (`backend/app/pydantic_models/game.py`) -/

/-- The `game.event` payload set by `GameManager.set_event`. -/
structure GameEvent where
  type : String
  player_id : Option String
  affected_player_id : Option String
deriving Repr, DecidableEq

/-- The `Game` pydantic model.  `game_settings` and `player_skips` are
carried by the source model but never read or written by the operations
verified here, so they are omitted from the embedding. -/
structure Game where
  host_id : String
  state : String
  players : List String
  player_names : List (String × String)
  player_states : List (String × String)
  current_player_index : Option Nat
  current_active_color : Option String
  direction : Int
  event : Option GameEvent
  deck : List String
  discard_pile : List String
  player_cards : List (String × List String)
deriving Repr, DecidableEq

/-! ### GameManager operations (`backend/app/game_manager.py`) -/

/-- `GameManager.advance_turn`: wraps `advance_turn_counter` over the
current room.  The source `assert`s `current_player_index is not None`;
every call site below reaches it with a `some` index, so the `none`
branch (an `AssertionError` in Python) is modelled as the identity. -/
def advance_turn (g : Game) : Game :=
  match g.current_player_index with
  | none => g
  | some current_player_index =>
      let i := advance_turn_counter current_player_index g.players.length
        (g.direction = 1)
      { g with current_player_index := some i }

/-- `GameManager.reverse_direction`. -/
def reverse_direction (g : Game) : Game :=
  { g with direction := g.direction * -1 }

/-- `GameManager.set_event`. -/
def set_event (g : Game) (event_type : String) (player_id : Option String)
    (affected_player_id : Option String) : Game :=
  { g with event := some ⟨event_type, player_id, affected_player_id⟩ }

/-- `GameManager.use_wild_card(color, game_id)` restricted to one room:
if a color token was supplied and its first character is a regular
color, set `current_active_color` to it; in every case advance the
turn. -/
def use_wild_card (color : Option String) (g : Game) : Game :=
  match color with
  | none => advance_turn g
  | some c =>
      let new_color := (retrieve_card_info c).1
      if new_color ∈ REGULAR_CARDS then
        advance_turn { g with current_active_color := some new_color }
      else
        advance_turn g

/-- `GameManager.join_game` restricted to one room (the manager raises
"Game does not exist." before this point when the id is unknown).
`.error` carries the message of the `Exception` the source raises. -/
def join_game (g : Game) (user_id : String) (user_name : String) :
    Except String Game :=
  if g.state ≠ "waiting" then
    .error "Game has already started."
  else if 10 ≤ g.players.length then
    .error "Game is full. Try again later."
  else if user_id ∉ g.players then
    .ok { g with
          players := g.players ++ [user_id],
          player_names := dictSet g.player_names user_id user_name,
          player_states := dictSet g.player_states user_id "ready",
          player_cards := dictSet g.player_cards user_id [] }
  else
    .ok g

/-- `GameManager.remove_player(game_id, user_id)` over the manager's
room table.  (`"player_names" in game.model_fields_set` is always true
for rooms built by `create_game`, which sets the field explicitly, so
that guard reduces to the membership test.) -/
def remove_player (games : List (String × Game)) (game_id : String)
    (user_id : String) : List (String × Game) :=
  match dictGet games game_id with
  | none => games
  | some game =>
      let g1 :=
        if dictMem game.player_names user_id then
          { game with player_names := dictDel game.player_names user_id }
        else game
      let g2 :=
        if user_id ∈ g1.players then
          let g' := { g1 with
                      players := g1.players.erase user_id,
                      player_states := dictDel g1.player_states user_id }
          if user_id = g'.host_id ∧ 0 < g'.players.length then
            { g' with host_id := g'.players.headD "" }
          else g'
        else g1
      let games' := dictSet games game_id g2
      if g2.players.length = 0 then dictDel games' game_id else games'

/-- The dealing loop `for _ in range(n): if len(deck) > 0:
hand.append(deck.pop())` — `list.pop()` takes the LAST element. -/
def deal_cards (n : Nat) (deck : List String) (hand : List String) :
    List String × List String :=
  match n with
  | 0 => (deck, hand)
  | n + 1 =>
      if deck.length = 0 then deal_cards n deck hand
      else deal_cards n deck.dropLast (hand ++ [deck.getLastD ""])

/-- The opening-deal loop of `start_game`: for each player in join
order, reset their hand to empty and deal 7 cards from the deck tail. -/
def deal_all (players : List String) (deck : List String)
    (pcs : List (String × List String)) :
    List String × List (String × List String) :=
  players.foldl
    (fun acc p =>
      let r := deal_cards 7 acc.1 []
      (r.1, dictSet acc.2 p r.2))
    (deck, pcs)

/-- `GameManager.start_game` restricted to one room, with the three
random draws (`random.shuffle(deck)`, `random.choice(REGULAR_CARDS)`,
`random.randint(0, len(players)-1)`) passed in as parameters
`shuffled_deck`, `fallback_color`, `start_index`. -/
def start_game (shuffled_deck : List String) (fallback_color : String)
    (start_index : Nat) (g : Game) : Except String Game :=
  if g.players.length < 2 then
    .error "Not enough players to start game."
  else if "playing" ∈ g.player_states.map Prod.snd then
    .ok g
  else
    let g1 := { g with
                state := "playing",
                player_states :=
                  g.players.foldl (fun st p => dictSet st p "playing")
                    g.player_states,
                deck := shuffled_deck }
    let dealt := deal_all g.players g1.deck g1.player_cards
    let g2 := { g1 with deck := dealt.1, player_cards := dealt.2 }
    let g3 :=
      if g2.deck.length = 0 then g2
      else
        let first_card := g2.deck.getLastD ""
        let first_card_color := (retrieve_card_info first_card).1
        { g2 with
          deck := g2.deck.dropLast,
          discard_pile := g2.discard_pile ++ [first_card],
          current_active_color :=
            some (if first_card_color ∈ REGULAR_CARDS then first_card_color
                  else fallback_color) }
    .ok { g3 with current_player_index := some start_index }

/-- The `"draw_card_from_middle"` branch of `GameManager.process_turn`.
`none` stands for an exception escaping `process_turn` (empty-deck
`pop`, missing dict key); partial mutations such an exception leaves
behind in the Python object are not modelled. -/
def pt_draw_card (current_player_index : Nat) (player_id : String)
    (advance_turn_flag : Bool) (g : Game) : Option Game :=
  match g.players.get? current_player_index with
  | none => none
  | some current_player_id =>
      if current_player_id ≠ player_id then some g
      else
        match g.deck.getLast? with
        | none => none
        | some selected_card =>
            match dictGet g.player_cards current_player_id with
            | none => none
            | some hand =>
                let g1 := { g with
                  deck := g.deck.dropLast,
                  player_cards := dictSet g.player_cards current_player_id
                    (hand ++ [selected_card]) }
                let g2 := set_event g1 "draw_card" (some current_player_id) none
                some (if advance_turn_flag then advance_turn g2 else g2)

/-- The rank-specific effect dispatch of the `"play_card"` branch
(source lines 352–386): `g3` is the room after the card has been
committed, the `play_card` event set, and `active_color` updated for a
non-wild card.  `card_value`, `is_special_card` and `is_wild_card`
recompute the pure expressions the source computed just above. -/
def pt_play_effects (current_player_id c : String) (g3 : Game) : Option Game :=
  let card_value := (retrieve_card_info c).2
  let is_special_card :=
    card_value ∈ SPECIAL_CARDS ∨ strDrop c 2 ∈ SPECIAL_CARDS
  let is_wild_card := c ∈ WILD_CARDS
  if is_special_card then
    if card_value = "S" then
      let g4 := advance_turn g3
      match g4.current_player_index with
      | none => none
      | some new_index =>
          match g4.players.get? new_index with
          | none => none
          | some skipped =>
              some (advance_turn (set_event g4 "skip" none (some skipped)))
    else if card_value = "R" then
      some (advance_turn
        (set_event (reverse_direction g3) "reverse" none none))
    else if strDrop c 2 = "D2" then
      match g3.current_player_index with
      | none => none
      | some idx =>
          let next_p_index := advance_turn_counter idx
            g3.players.length (g3.direction = 1)
          match g3.players.get? next_p_index with
          | none => none
          | some victim_id =>
              match dictGet g3.player_cards victim_id with
              | none => none
              | some victim_hand =>
                  let r := deal_cards 2 g3.deck victim_hand
                  let g4 := { g3 with
                    deck := r.1,
                    player_cards := dictSet g3.player_cards
                      victim_id r.2 }
                  some (advance_turn (set_event g4 "draw2"
                    (some current_player_id) (some victim_id)))
    else
      some (advance_turn g3)
  else if is_wild_card then
    if strContains c "Wild" ∧ ¬ strContains c "W4" then
      some (set_event g3 "wild_color_pick"
        (some current_player_id) none)
    else if strContains c "W4" then
      some (set_event g3 "wild_color_pick_draw4"
        (some current_player_id) none)
    else
      some (advance_turn g3)
  else
    some (advance_turn g3)

/-- The tail of the `"play_card"` branch, after the legality check has
passed and the card has been moved from `hand` onto the discard pile
(`g1` is the room in that intermediate state, the source's `game` after
lines 343–344): set the `play_card` event, check for a win, update
`active_color` for a non-wild card, then dispatch the rank effects. -/
def pt_play_commit (current_player_id c : String) (g1 : Game) : Option Game :=
  let card_color := (retrieve_card_info c).1
  let is_wild_card := c ∈ WILD_CARDS
  let g2 := set_event g1 "play_card" (some current_player_id) none
  match dictGet g2.player_cards current_player_id with
  | none => none
  | some hand2 =>
      if hand2.length = 0 then
        some (set_event g2 "win" (some current_player_id) none)
      else
        pt_play_effects current_player_id c
          (if ¬ is_wild_card then
            { g2 with current_active_color := some card_color }
          else g2)

/-- The `"play_card"` branch of `GameManager.process_turn`.  The play is
committed exactly when `is_wild_card or card_color == active_color or
card_value == top_card_value`, where `card_value`/`top_card_value` are
the LAST characters of the encoded strings. -/
def pt_play_card (current_player_index : Nat) (player_id : String)
    (card : Option String) (g : Game) : Option Game :=
  match g.players.get? current_player_index with
  | none => none
  | some current_player_id =>
      if current_player_id ≠ player_id then some g
      else
        match card with
        | none => some g
        | some c =>
            match dictGet g.player_cards current_player_id with
            | none => none
            | some hand =>
                if c ∉ hand then some g
                else
                  let card_color := (retrieve_card_info c).1
                  let card_value := (retrieve_card_info c).2
                  match g.discard_pile.getLast? with
                  | none => none
                  | some top_card =>
                      let top_card_value := (retrieve_card_info top_card).2
                      let active_color := g.current_active_color
                      let is_wild_card := c ∈ WILD_CARDS
                      if is_wild_card ∨ some card_color = active_color ∨
                          card_value = top_card_value then
                        pt_play_commit current_player_id c
                          { g with
                            discard_pile := g.discard_pile ++ [c],
                            player_cards := dictSet g.player_cards
                              current_player_id (hand.erase c) }
                      else some g

/-- The `"change_color_with_wild_and_draw4"` branch of
`GameManager.process_turn`: remember the initiator, let
`use_wild_card` set the color and advance, then deal up to 4 cards to
whoever the turn now points at. -/
def pt_wild4 (current_player_index : Nat) (card : Option String) (g : Game) :
    Option Game :=
  match g.players.get? current_player_index with
  | none => none
  | some player_id_initiator =>
      let g1 := use_wild_card card g
      match g1.current_player_index with
      | none => none
      | some idx1 =>
          match g1.players.get? idx1 with
          | none => none
          | some victim_id =>
              match dictGet g1.player_cards victim_id with
              | none => none
              | some victim_hand =>
                  let r := deal_cards 4 g1.deck victim_hand
                  let g2 := { g1 with
                    deck := r.1,
                    player_cards := dictSet g1.player_cards victim_id r.2 }
                  some (set_event g2 "draw4" (some player_id_initiator)
                    (some victim_id))

/-- `GameManager.process_turn(player_id, game_id, action, card,
advance_turn)` restricted to one room: dispatch on the action string.
The pending event is cleared only once the action string and the
current-player index have been checked, exactly as in the source. -/
def process_turn (player_id : String) (action : Option String)
    (card : Option String) (advance_turn_flag : Bool) (g : Game) :
    Option Game :=
  match action with
  | none => some g
  | some act =>
      match g.current_player_index with
      | none => some g
      | some current_player_index =>
          let g' := { g with event := none }
          if act = "draw_card_from_middle" then
            pt_draw_card current_player_index player_id advance_turn_flag g'
          else if act = "play_card" then
            pt_play_card current_player_index player_id card g'
          else if act = "change_color_with_wild" then
            some (use_wild_card card g')
          else if act = "change_color_with_wild_and_draw4" then
            pt_wild4 current_player_index card g'
          else
            some g'

/-! ### View projection (`backend/app/websocket_utils.py`,
`send_game_update`) -/

/-- The `GameState` pydantic model
(`backend/app/pydantic_models/game_state.py`): the per-recipient
filtered view sent to the frontend. -/
structure GameState where
  event : String
  game_id : String
  current_active_color : Option String
  direction : Int
  top_card : Option String
  current_player : String
  hand : List String
  card_counts : List (String × Nat)
  game_event : Option GameEvent
  player_states : List (String × String)
deriving Repr, DecidableEq

/-- The body of `send_game_update`'s per-player loop: the projection
built for one recipient.  `none` models the `assert` on
`current_player_index` failing, an out-of-range `players[...]`, or a
`KeyError` in the `card_counts` comprehension (which indexes
`player_cards[other_player_id]` directly, unlike the recipient's own
hand which uses `.get(player_id, [])`). -/
def build_projection (g : Game) (current_game_id : String) (event : String)
    (recipient : String) : Option GameState :=
  match g.current_player_index with
  | none => none
  | some current_player_index =>
      match g.players.get? current_player_index with
      | none => none
      | some current_player_id =>
          match (g.players.filter (fun q => q ≠ recipient)).mapM
              (fun q => (dictGet g.player_cards q).map
                (fun h => (q, h.length))) with
          | none => none
          | some counts =>
              some { event := event,
                     game_id := current_game_id,
                     current_active_color := g.current_active_color,
                     direction := g.direction,
                     top_card := g.discard_pile.getLast?,
                     current_player := current_player_id,
                     hand := dictGetD g.player_cards recipient [],
                     card_counts := counts,
                     game_event := g.event,
                     player_states := g.player_states }

/-! ### Concrete fixture rooms -/

/-- A 3-player room `ABCD` mid-game: `p1` to move, active color green,
`B-2` on top of the discard pile. -/
def exG : Game :=
  { host_id := "p1"
    state := "playing"
    players := ["p1", "p2", "p3"]
    player_names := [("p1", "Alice"), ("p2", "Bob"), ("p3", "Cleo")]
    player_states := [("p1", "playing"), ("p2", "playing"), ("p3", "playing")]
    current_player_index := some 0
    current_active_color := some "G"
    direction := 1
    event := none
    deck := ["R-1", "R-2", "R-3", "R-4"]
    discard_pile := ["B-2"]
    player_cards := [("p1", ["R-D2", "R-5"]), ("p2", ["B-7"]),
      ("p3", ["Y-9"])] }

/-- A 2-player room still waiting to start. -/
def exWait : Game :=
  { host_id := "p1"
    state := "waiting"
    players := ["p1", "p2"]
    player_names := [("p1", "Alice"), ("p2", "Bob")]
    player_states := [("p1", "ready"), ("p2", "ready")]
    current_player_index := none
    current_active_color := none
    direction := 1
    event := none
    deck := []
    discard_pile := []
    player_cards := [("p1", []), ("p2", [])] }

/-- The room `start_game` produces from `exWait` on the unshuffled deck,
first player `p2`. -/
def exStarted : Game :=
  (start_game create_deck_base "R" 1 exWait).toOption.getD exWait

/-- The room after `p1` draws a card from the middle in `exG`. -/
def exDrawn : Game :=
  (process_turn "p1" (some "draw_card_from_middle") none true exG).getD exG

/-- A full 10-player waiting room whose member `p3` tries to re-join. -/
def exFull : Game :=
  { host_id := "p1"
    state := "waiting"
    players := ["p1", "p2", "p3", "p4", "p5", "p6", "p7", "p8", "p9", "p10"]
    player_names := [("p1", "A"), ("p2", "B"), ("p3", "C"), ("p4", "D"),
      ("p5", "E"), ("p6", "F"), ("p7", "G"), ("p8", "H"), ("p9", "I"),
      ("p10", "J")]
    player_states := [("p1", "ready"), ("p2", "ready"), ("p3", "ready"),
      ("p4", "ready"), ("p5", "ready"), ("p6", "ready"), ("p7", "ready"),
      ("p8", "ready"), ("p9", "ready"), ("p10", "ready")]
    current_player_index := none
    current_active_color := none
    direction := 1
    event := none
    deck := []
    discard_pile := []
    player_cards := [("p1", []), ("p2", []), ("p3", []), ("p4", []),
      ("p5", []), ("p6", []), ("p7", []), ("p8", []), ("p9", []),
      ("p10", [])] }

/-- A one-room manager table, for exercising `remove_player`. -/
def exGames : List (String × Game) := [("ABCD", exG)]

/-- The room after `p1` plays the `R-D2` card in `exG`. -/
def exPlayed : Game :=
  (process_turn "p1" (some "play_card") (some "R-D2") true exG).getD exG

/-- `exG` with `p1` holding a green Skip. -/
def exSkipG : Game :=
  { exG with player_cards := [("p1", ["G-S", "R-5"]), ("p2", ["B-7"]),
      ("p3", ["Y-9"])] }

/-- The room after `p1` plays `G-S` in `exSkipG`. -/
def exSkipPlayed : Game :=
  (process_turn "p1" (some "play_card") (some "G-S") true exSkipG).getD
    exSkipG

/-- `exG` with `p1` holding only a green 5 — one card from winning. -/
def exWinG : Game :=
  { exG with player_cards := [("p1", ["G-5"]), ("p2", ["B-7"]),
      ("p3", ["Y-9"])] }

/-- The room after `p1` plays the last card `G-5` in `exWinG`. -/
def exWinPlayed : Game :=
  (process_turn "p1" (some "play_card") (some "G-5") true exWinG).getD
    exWinG

/-- The room after an unrelated actor `zzz` fires the draw4 color
choice in `exG`. -/
def exDraw4 : Game :=
  (process_turn "zzz" (some "change_color_with_wild_and_draw4")
    (some "B") true exG).getD exG

/-- `exG` with `p3`'s hand replaced by a different card of the same
count — used to check that another player's view cannot depend on it. -/
def exGalt : Game :=
  { exG with player_cards := [("p1", ["R-D2", "R-5"]), ("p2", ["B-7"]),
      ("p3", ["G-1"])] }

/-- The rank of an encoded card as claim C2 reads it: everything after
the one-character color prefix and the dash (`"R-D2"` has rank `"D2"`,
`"R-2"` has rank `"2"`).  This definition follows the CLAIM's wording
("rank matching means equality of the card's rank ... never cross-rank
matches"), for comparison with what the source actually tests. -/
def spec_rank (card : String) : String := strDrop card 2

/-- The play-legality predicate exactly as claim C2 states it: wild, or
color equal to the active color, or full-rank equality with the discard
top.  Stated from the claim's words, to be compared with the source's
condition (which compares only the LAST character of each encoding). -/
def spec_play_legal (card top : String) (active : Option String) : Bool :=
  WILD_CARDS.contains card ||
  (some (retrieve_card_info card).1 == active) ||
  (spec_rank card == spec_rank top)

/-! ### Association-list lemmas -/

theorem dictGet_eq_none_of_not_mem {α : Type} (d : List (String × α))
    (k : String) (h : k ∉ d.map Prod.fst) : dictGet d k = none := by
  induction d with
  | nil => rfl
  | cons e rest ih =>
      obtain ⟨k', v'⟩ := e
      simp only [List.map_cons, List.mem_cons, not_or] at h
      simp only [dictGet, if_neg (h.1 ∘ Eq.symm ∘ id)]
      exact ih h.2

theorem dictGet_dictSet {α : Type} (d : List (String × α)) (k q : String)
    (v : α) :
    dictGet (dictSet d k v) q = if q = k then some v else dictGet d q := by
  induction d with
  | nil =>
      rcases eq_or_ne q k with rfl | h
      · simp [dictSet, dictGet]
      · simp [dictSet, dictGet, h, Ne.symm h]
  | cons e rest ih =>
      obtain ⟨k', v'⟩ := e
      rcases eq_or_ne k' k with rfl | hk
      · rcases eq_or_ne q k' with rfl | hq
        · simp [dictSet, dictGet]
        · simp [dictSet, dictGet, hq, Ne.symm hq]
      · rcases eq_or_ne q k' with rfl | hq
        · simp [dictSet, dictGet, hk, Ne.symm hk]
        · simp [dictSet, dictGet, hk, Ne.symm hq, ih]

theorem dictGetD_eq {α : Type} {d : List (String × α)} {k : String} {v : α}
    (dflt : α) (h : dictGet d k = some v) : dictGetD d k dflt = v := by
  simp [dictGetD, h]

theorem dictGet_dictDel {α : Type} (d : List (String × α)) (k q : String)
    (hnd : (d.map Prod.fst).Nodup) :
    dictGet (dictDel d k) q = if q = k then none else dictGet d q := by
  induction d with
  | nil =>
      rcases eq_or_ne q k with rfl | h
      · simp [dictDel, dictGet]
      · simp [dictDel, dictGet, h]
  | cons e rest ih =>
      obtain ⟨k', v'⟩ := e
      simp only [List.map_cons, List.nodup_cons] at hnd
      rcases eq_or_ne k' k with rfl | hk
      · rcases eq_or_ne q k' with rfl | hq
        · simp only [dictDel, if_pos rfl, if_pos rfl]
          exact dictGet_eq_none_of_not_mem rest q hnd.1
        · simp [dictDel, dictGet, hq, Ne.symm hq]
      · rcases eq_or_ne q k' with rfl | hq
        · simp [dictDel, dictGet, hk, Ne.symm hk]
        · simp [dictDel, dictGet, hk, Ne.symm hq, hq, ih hnd.2]

/-! ### Card-count bookkeeping -/

/-- The multiset of cards held across a list of participants. -/
def handsSum (players : List String)
    (pcs : List (String × List String)) : Multiset String :=
  (players.map
    (fun q => ((dictGetD pcs q [] : List String) : Multiset String))).sum

/-- Every card in the room: deck, discard pile, and all players' hands. -/
def allCards (g : Game) : Multiset String :=
  (g.deck : Multiset String) + (g.discard_pile : Multiset String) +
    handsSum g.players g.player_cards

/-- `len(deck) + len(discard_pile) + Σ len(hand)`, the quantity §8 of the
spec tracks. -/
def totalCards (g : Game) : Nat :=
  g.deck.length + g.discard_pile.length +
    (g.players.map (fun p => (dictGetD g.player_cards p []).length)).sum

theorem card_handsSum (players : List String)
    (pcs : List (String × List String)) :
    Multiset.card (handsSum players pcs) =
      (players.map (fun p => (dictGetD pcs p []).length)).sum := by
  induction players with
  | nil => simp [handsSum]
  | cons p rest ih =>
      simp only [handsSum] at ih ⊢
      simp [List.map_cons, List.sum_cons, ih]

theorem card_allCards (g : Game) :
    Multiset.card (allCards g) = totalCards g := by
  simp [allCards, totalCards, card_handsSum]

/-- A swap identity over `List.map`-sums: if `f'` differs from `f` only
at one element `p` of a duplicate-free list, the sums differ by
swapping `f p` for `f' p`. -/
theorem map_sum_swap {M : Type} [AddCommMonoid M] (l : List String)
    (f f' : String → M) (p : String) (hnd : l.Nodup) (hp : p ∈ l)
    (hsame : ∀ q ∈ l, q ≠ p → f' q = f q) :
    (l.map f').sum + f p = (l.map f).sum + f' p := by
  induction l with
  | nil => cases hp
  | cons a rest ih =>
      simp only [List.nodup_cons] at hnd
      rcases List.mem_cons.mp hp with rfl | hp'
      · have hmap : rest.map f' = rest.map f :=
          List.map_congr_left (fun q hq =>
            hsame q (List.mem_cons_of_mem _ hq) (fun h => hnd.1 (h ▸ hq)))
        simp only [List.map_cons, List.sum_cons, hmap]
        abel
      · have ha : f' a = f a :=
          hsame a (List.mem_cons_self _ _) (fun h => hnd.1 (h ▸ hp'))
        have hrec := ih hnd.2 hp'
          (fun q hq hqp => hsame q (List.mem_cons_of_mem _ hq) hqp)
        simp only [List.map_cons, List.sum_cons, ha]
        calc f a + (rest.map f').sum + f p
            = f a + ((rest.map f').sum + f p) := by abel
          _ = f a + ((rest.map f).sum + f' p) := by rw [hrec]
          _ = f a + (rest.map f).sum + f' p := by abel

/-- Replacing one participant's hand swaps the old hand for the new one
in the pooled multiset. -/
theorem handsSum_dictSet (players : List String)
    (pcs : List (String × List String)) (p : String) (newh : List String)
    (hnd : players.Nodup) (hp : p ∈ players) :
    handsSum players (dictSet pcs p newh) +
        ((dictGetD pcs p [] : List String) : Multiset String) =
      handsSum players pcs + (newh : Multiset String) := by
  have h := map_sum_swap players
    (fun q => ((dictGetD pcs q [] : List String) : Multiset String))
    (fun q => ((dictGetD (dictSet pcs p newh) q [] : List String) :
      Multiset String))
    p hnd hp
    (fun q _ hqp => by simp [dictGetD, dictGet_dictSet, hqp])
  simpa [handsSum, dictGetD, dictGet_dictSet] using h

theorem dropLast_append_getLastD (l : List String)
    (h : l.length ≠ 0) : l.dropLast ++ [l.getLastD ""] = l := by
  induction l with
  | nil => simp at h
  | cons a rest ih =>
      cases rest with
      | nil => rfl
      | cons b r2 => simpa [List.dropLast] using ih (by simp)

/-- The dealing loop moves cards from the deck tail into the hand:
nothing is created or dropped. -/
theorem deal_cards_conserves (n : Nat) (deck hand : List String) :
    ((deal_cards n deck hand).1 : Multiset String) +
        ((deal_cards n deck hand).2 : Multiset String) =
      (deck : Multiset String) + (hand : Multiset String) := by
  induction n generalizing deck hand with
  | zero => simp [deal_cards]
  | succ n ih =>
      by_cases h : deck.length = 0
      · simp [deal_cards, h, ih]
      · simp only [deal_cards, h, if_false]
        rw [ih]
        conv_rhs => rw [← dropLast_append_getLastD deck h]
        simp only [← Multiset.coe_add]
        abel

theorem deal_cards_length (n : Nat) (deck hand : List String) :
    (deal_cards n deck hand).2.length = hand.length + min n deck.length := by
  induction n generalizing deck hand with
  | zero => simp [deal_cards]
  | succ n ih =>
      by_cases h : deck.length = 0
      · simp [deal_cards, h, ih]
      · simp only [deal_cards, h, if_false]
        rw [ih]
        simp only [List.length_append, List.length_dropLast,
          List.length_cons, List.length_nil]
        omega

/-! ### Conservation of the 108-card pool -/

theorem allCards_set_event (g : Game) (t : String) (p a : Option String) :
    allCards (set_event g t p a) = allCards g := rfl

theorem allCards_advance_turn (g : Game) :
    allCards (advance_turn g) = allCards g := by
  rcases hidx : g.current_player_index with _ | i <;>
    simp [advance_turn, hidx, allCards]

theorem advance_turn_players (g : Game) :
    (advance_turn g).players = g.players := by
  rcases hidx : g.current_player_index with _ | i <;>
    simp [advance_turn, hidx]

theorem allCards_reverse_direction (g : Game) :
    allCards (reverse_direction g) = allCards g := rfl

theorem allCards_use_wild_card (c : Option String) (g : Game) :
    allCards (use_wild_card c g) = allCards g := by
  cases c with
  | none => exact allCards_advance_turn g
  | some s =>
      simp only [use_wild_card]
      split
      · rw [allCards_advance_turn]; rfl
      · exact allCards_advance_turn g

theorem use_wild_card_players (c : Option String) (g : Game) :
    (use_wild_card c g).players = g.players := by
  cases c with
  | none => exact advance_turn_players g
  | some s =>
      simp only [use_wild_card]
      split
      · rw [advance_turn_players]
      · exact advance_turn_players g

/-- The record built by `allCards_move` below, named so the statement
stays within one structure literal. -/
def moveUpd (g : Game) (d' dp' : List String) (p : String)
    (newh : List String) : Game :=
  { g with
    deck := d',
    discard_pile := dp',
    player_cards := dictSet g.player_cards p newh }

/-- Moving cards between the deck, the discard pile and one member's
hand preserves the pooled multiset, provided the per-zone exchange is
balanced. -/
theorem allCards_move (g : Game) (d' dp' : List String) (p : String)
    (oldh newh : List String) (hnd : g.players.Nodup) (hp : p ∈ g.players)
    (hold : dictGet g.player_cards p = some oldh)
    (hbal : (d' : Multiset String) + (dp' : Multiset String) +
          (newh : Multiset String)
        = (g.deck : Multiset String) + (g.discard_pile : Multiset String) +
          (oldh : Multiset String)) :
    allCards (moveUpd g d' dp' p newh) = allCards g := by
  have hswap := handsSum_dictSet g.players g.player_cards p newh hnd hp
  rw [dictGetD_eq [] hold] at hswap
  have key : allCards (moveUpd g d' dp' p newh) + (oldh : Multiset String)
      = allCards g + (oldh : Multiset String) := by
    simp only [allCards, moveUpd]
    calc (d' : Multiset String) + (dp' : Multiset String) +
          handsSum g.players (dictSet g.player_cards p newh) +
          (oldh : Multiset String)
        = (d' : Multiset String) + (dp' : Multiset String) +
          (handsSum g.players (dictSet g.player_cards p newh) +
            (oldh : Multiset String)) := by abel
      _ = (d' : Multiset String) + (dp' : Multiset String) +
          (handsSum g.players g.player_cards + (newh : Multiset String)) := by
            rw [hswap]
      _ = ((d' : Multiset String) + (dp' : Multiset String) +
            (newh : Multiset String)) +
          handsSum g.players g.player_cards := by abel
      _ = ((g.deck : Multiset String) + (g.discard_pile : Multiset String) +
            (oldh : Multiset String)) +
          handsSum g.players g.player_cards := by rw [hbal]
      _ = (g.deck : Multiset String) + (g.discard_pile : Multiset String) +
          handsSum g.players g.player_cards + (oldh : Multiset String) := by
            abel
  exact add_right_cancel key

theorem pt_draw_card_conserves (i : Nat) (pid : String) (flag : Bool)
    {g g' : Game} (hnd : g.players.Nodup)
    (h : pt_draw_card i pid flag g = some g') :
    allCards g' = allCards g := by
  unfold pt_draw_card at h
  split at h
  · exact Option.noConfusion h
  next cur hcur =>
    split at h
    · cases h; rfl
    next hpid =>
      split at h
      · exact Option.noConfusion h
      next sel hsel =>
        split at h
        · exact Option.noConfusion h
        next hand hhand =>
          injection h with h
          subst h
          have hmem : cur ∈ g.players := List.get?_mem hcur
          have hl : g.deck.dropLast ++ [sel] = g.deck :=
            List.dropLast_append_getLast? sel hsel
          have h1 : allCards (moveUpd g g.deck.dropLast g.discard_pile cur
              (hand ++ [sel])) = allCards g := by
            apply allCards_move g _ _ cur hand _ hnd hmem hhand
            conv_rhs => rw [← hl]
            simp only [← Multiset.coe_add]
            abel
          cases flag
          · exact h1
          · exact (allCards_advance_turn _).trans h1

theorem pt_play_effects_conserves (cur c : String) {g3 g' : Game}
    (hnd : g3.players.Nodup)
    (h : pt_play_effects cur c g3 = some g') :
    allCards g' = allCards g3 := by
  simp only [pt_play_effects] at h
  split at h
  next hspecial =>
    split at h
    next hS =>
      split at h
      · exact Option.noConfusion h
      next newi hnewi =>
        split at h
        · exact Option.noConfusion h
        next skipped hskip =>
          cases h
          exact (allCards_advance_turn _).trans (allCards_advance_turn _)
    next hS =>
      split at h
      next hR =>
        cases h
        exact (allCards_advance_turn _).trans rfl
      next hR =>
        split at h
        next hD2 =>
          split at h
          · exact Option.noConfusion h
          next idx hidx =>
            split at h
            · exact Option.noConfusion h
            next victim hvic =>
              split at h
              · exact Option.noConfusion h
              next vh hvh =>
                cases h
                refine (allCards_advance_turn _).trans ?_
                apply allCards_move g3 _ _ victim vh _ hnd
                  (List.get?_mem hvic) hvh
                have hd := deal_cards_conserves 2 g3.deck vh
                calc ((deal_cards 2 g3.deck vh).1 : Multiset String) +
                      (g3.discard_pile : Multiset String) +
                      ((deal_cards 2 g3.deck vh).2 : Multiset String)
                    = (((deal_cards 2 g3.deck vh).1 : Multiset String) +
                        ((deal_cards 2 g3.deck vh).2 : Multiset String)) +
                      (g3.discard_pile : Multiset String) := by abel
                  _ = ((g3.deck : Multiset String) + (vh : Multiset String)) +
                      (g3.discard_pile : Multiset String) := by rw [hd]
                  _ = _ := by abel
        next hD2 =>
          cases h
          exact allCards_advance_turn _
  next hspecial =>
    split at h
    next hwild =>
      split at h
      next hw1 =>
        cases h
        rfl
      next hw1 =>
        split at h
        next hw2 =>
          cases h
          rfl
        next hw2 =>
          cases h
          exact allCards_advance_turn _
    next hwild =>
      cases h
      exact allCards_advance_turn _

theorem pt_play_commit_conserves (cur c : String) {g1 g' : Game}
    (hnd : g1.players.Nodup)
    (h : pt_play_commit cur c g1 = some g') :
    allCards g' = allCards g1 := by
  simp only [pt_play_commit] at h
  split at h
  · exact Option.noConfusion h
  next hand2 hhand2 =>
    split at h
    · cases h; rfl
    next hwin =>
      have hnd3 : (if ¬ c ∈ WILD_CARDS then
          { set_event g1 "play_card" (some cur) none with
            current_active_color := some (retrieve_card_info c).1 }
          else set_event g1 "play_card" (some cur) none).players.Nodup := by
        split <;> exact hnd
      refine (pt_play_effects_conserves cur c hnd3 h).trans ?_
      split <;> rfl

theorem pt_play_card_conserves (i : Nat) (pid : String) (card : Option String)
    {g g' : Game} (hnd : g.players.Nodup)
    (h : pt_play_card i pid card g = some g') :
    allCards g' = allCards g := by
  simp only [pt_play_card] at h
  split at h
  · exact Option.noConfusion h
  next cur hcur =>
    split at h
    · cases h; rfl
    next hpid =>
      split at h
      · cases h; rfl
      next c =>
        split at h
        · exact Option.noConfusion h
        next hand hhand =>
          split at h
          · cases h; rfl
          next hcnot =>
            have hch : c ∈ hand := not_not.mp hcnot
            split at h
            · exact Option.noConfusion h
            next top htop =>
              split at h
              next hcond =>
                have hmem : cur ∈ g.players := List.get?_mem hcur
                have hsingle :
                    (([c] : List String) : Multiset String) +
                      ((hand.erase c : List String) : Multiset String) =
                    (hand : Multiset String) := by
                  rw [Multiset.coe_singleton, Multiset.singleton_add,
                    ← Multiset.coe_erase]
                  exact Multiset.cons_erase (by exact_mod_cast hch)
                have hErase : allCards (moveUpd g g.deck
                    (g.discard_pile ++ [c]) cur (hand.erase c)) = allCards g := by
                  apply allCards_move g _ _ cur hand _ hnd hmem hhand
                  calc (g.deck : Multiset String) +
                        ((g.discard_pile ++ [c] : List String) : Multiset String) +
                        ((hand.erase c : List String) : Multiset String)
                      = (g.deck : Multiset String) +
                        (g.discard_pile : Multiset String) +
                        ((([c] : List String) : Multiset String) +
                          ((hand.erase c : List String) : Multiset String)) := by
                        simp only [← Multiset.coe_add]
                        abel
                    _ = (g.deck : Multiset String) +
                        (g.discard_pile : Multiset String) +
                        (hand : Multiset String) := by rw [hsingle]
                have hnd1 : (moveUpd g g.deck (g.discard_pile ++ [c]) cur
                    (hand.erase c)).players.Nodup := hnd
                exact (pt_play_commit_conserves cur c hnd1 h).trans hErase
              next hcond =>
                cases h; rfl


theorem pt_wild4_conserves (i : Nat) (c : Option String)
    {g g' : Game} (hnd : g.players.Nodup)
    (h : pt_wild4 i c g = some g') :
    allCards g' = allCards g := by
  simp only [pt_wild4] at h
  split at h
  · exact Option.noConfusion h
  next initiator hinit =>
    split at h
    · exact Option.noConfusion h
    next idx1 hidx1 =>
      split at h
      · exact Option.noConfusion h
      next victim hvic =>
        split at h
        · exact Option.noConfusion h
        next vh hvh =>
          injection h with h
          subst h
          have hnd1 : (use_wild_card c g).players.Nodup := by
            rw [use_wild_card_players]; exact hnd
          have hmem : victim ∈ (use_wild_card c g).players :=
            List.get?_mem hvic
          have h1 : allCards (moveUpd (use_wild_card c g)
              (deal_cards 4 (use_wild_card c g).deck vh).1
              (use_wild_card c g).discard_pile victim
              (deal_cards 4 (use_wild_card c g).deck vh).2)
              = allCards (use_wild_card c g) := by
            apply allCards_move _ _ _ victim vh _ hnd1 hmem hvh
            have := deal_cards_conserves 4 (use_wild_card c g).deck vh
            calc ((deal_cards 4 (use_wild_card c g).deck vh).1 :
                    Multiset String) +
                  ((use_wild_card c g).discard_pile : Multiset String) +
                  ((deal_cards 4 (use_wild_card c g).deck vh).2 :
                    Multiset String)
                = (((deal_cards 4 (use_wild_card c g).deck vh).1 :
                    Multiset String) +
                   ((deal_cards 4 (use_wild_card c g).deck vh).2 :
                    Multiset String)) +
                  ((use_wild_card c g).discard_pile : Multiset String) := by
                  abel
              _ = (((use_wild_card c g).deck : Multiset String) +
                   (vh : Multiset String)) +
                  ((use_wild_card c g).discard_pile : Multiset String) := by
                  rw [this]
              _ = _ := by abel
          exact ((allCards_set_event _ _ _ _).trans h1).trans
            (allCards_use_wild_card c g)

theorem process_turn_conserves (pid : String) (action : Option String)
    (card : Option String) (flag : Bool) {g g' : Game}
    (hnd : g.players.Nodup)
    (h : process_turn pid action card flag g = some g') :
    allCards g' = allCards g := by
  simp only [process_turn] at h
  split at h
  · cases h; rfl
  next act =>
    split at h
    · cases h; rfl
    next i hidx =>
      have hnd0 : ({ g with event := none } : Game).players.Nodup := hnd
      split at h
      · exact (pt_draw_card_conserves i pid flag hnd0 h).trans rfl
      split at h
      · exact (pt_play_card_conserves i pid card hnd0 h).trans rfl
      split at h
      · cases h
        exact (allCards_use_wild_card card { g with event := none }).trans rfl
      split at h
      · exact (pt_wild4_conserves i card hnd0 h).trans rfl
      · cases h; rfl

theorem deal_all_get_not_mem (players : List String) (d : List String)
    (pcs : List (String × List String)) (k : String) (hk : k ∉ players) :
    dictGet (deal_all players d pcs).2 k = dictGet pcs k := by
  induction players generalizing d pcs with
  | nil => rfl
  | cons p rest ih =>
      simp only [List.mem_cons, not_or] at hk
      rw [show deal_all (p :: rest) d pcs
            = deal_all rest (deal_cards 7 d []).1
              (dictSet pcs p (deal_cards 7 d []).2) from rfl]
      rw [ih _ _ hk.2, dictGet_dictSet]
      simp [hk.1]

/-- After the opening deal, the remaining deck together with the dealt
hands is exactly the shuffled deck: dealing moves cards, never
invents or drops them. -/
theorem deal_all_conserves (players : List String) (d : List String)
    (pcs : List (String × List String)) (hnd : players.Nodup) :
    ((deal_all players d pcs).1 : Multiset String) +
      handsSum players (deal_all players d pcs).2 = (d : Multiset String) := by
  induction players generalizing d pcs with
  | nil => simp [deal_all, handsSum]
  | cons p rest ih =>
      simp only [List.nodup_cons] at hnd
      rw [show deal_all (p :: rest) d pcs
            = deal_all rest (deal_cards 7 d []).1
              (dictSet pcs p (deal_cards 7 d []).2) from rfl]
      have hkey : dictGet (deal_all rest (deal_cards 7 d []).1
          (dictSet pcs p (deal_cards 7 d []).2)).2 p
          = some (deal_cards 7 d []).2 := by
        rw [deal_all_get_not_mem rest _ _ p hnd.1, dictGet_dictSet]
        simp
      simp only [handsSum, List.map_cons, List.sum_cons]
      rw [dictGetD_eq [] hkey]
      have hrec := ih (deal_cards 7 d []).1
        (dictSet pcs p (deal_cards 7 d []).2) hnd.2
      simp only [handsSum] at hrec
      have hdc := deal_cards_conserves 7 d []
      calc ((deal_all rest (deal_cards 7 d []).1
              (dictSet pcs p (deal_cards 7 d []).2)).1 : Multiset String) +
            (((deal_cards 7 d []).2 : List String) +
              (rest.map (fun q => ((dictGetD (deal_all rest (deal_cards 7 d []).1
                (dictSet pcs p (deal_cards 7 d []).2)).2 q [] : List String) :
                Multiset String))).sum)
          = (((deal_all rest (deal_cards 7 d []).1
              (dictSet pcs p (deal_cards 7 d []).2)).1 : Multiset String) +
             (rest.map (fun q => ((dictGetD (deal_all rest (deal_cards 7 d []).1
                (dictSet pcs p (deal_cards 7 d []).2)).2 q [] : List String) :
                Multiset String))).sum) +
            ((deal_cards 7 d []).2 : List String) := by abel
        _ = ((deal_cards 7 d []).1 : Multiset String) +
            ((deal_cards 7 d []).2 : Multiset String) := by rw [hrec]
        _ = (d : Multiset String) + (([] : List String) : Multiset String) :=
            hdc
        _ = (d : Multiset String) := by simp

/-- `start_game` ends with every card of the shuffled deck accounted
for in the room (deck + first discard + dealt hands), provided the
discard pile started empty. -/
theorem start_game_allCards (sh : List String) (col : String) (si : Nat)
    {g g' : Game} (hnd : g.players.Nodup) (hdp : g.discard_pile = [])
    (hnp : "playing" ∉ g.player_states.map Prod.snd)
    (h : start_game sh col si g = Except.ok g') :
    allCards g' = (sh : Multiset String) := by
  simp only [start_game] at h
  rw [if_neg hnp] at h
  by_cases hlen : g.players.length < 2
  · rw [if_pos hlen] at h
    exact Except.noConfusion h
  · rw [if_neg hlen] at h
    injection h with h
    subst h
    simp only [allCards]
    split
    next hempty =>
      rw [hdp]
      rw [show (([] : List String) : Multiset String) = 0 from rfl]
      have := deal_all_conserves g.players sh g.player_cards hnd
      simpa using this
    next hempty =>
      rw [hdp]
      have hcons := deal_all_conserves g.players sh g.player_cards hnd
      have hl := dropLast_append_getLastD
        (deal_all g.players sh g.player_cards).1 hempty
      calc ((deal_all g.players sh g.player_cards).1.dropLast :
              Multiset String) +
            (([] ++ [(deal_all g.players sh g.player_cards).1.getLastD ""] :
              List String) : Multiset String) +
            handsSum g.players (deal_all g.players sh g.player_cards).2
          = (((deal_all g.players sh g.player_cards).1.dropLast ++
              [(deal_all g.players sh g.player_cards).1.getLastD ""] :
              List String) : Multiset String) +
            handsSum g.players (deal_all g.players sh g.player_cards).2 := by
            simp only [← Multiset.coe_add, List.nil_append]
        _ = ((deal_all g.players sh g.player_cards).1 : Multiset String) +
            handsSum g.players (deal_all g.players sh g.player_cards).2 := by
            rw [hl]
        _ = (sh : Multiset String) := hcons

theorem create_deck_base_length : create_deck_base.length = 108 := by
  rfl

/-! ### Reduction of a `play_card` call by the current player -/

/-- When the current player plays a card they hold and the legality
condition (wild, or color match, or last-character match) holds,
`process_turn` commits the card and runs the effect dispatch from the
intermediate state. -/
theorem process_turn_play_accepted (g : Game) (i : Nat) (p c top : String)
    (hand : List String) (flag : Bool)
    (hidx : g.current_player_index = some i)
    (hp : g.players.get? i = some p)
    (hhand : dictGet g.player_cards p = some hand)
    (hc : c ∈ hand)
    (htop : g.discard_pile.getLast? = some top)
    (hcond : c ∈ WILD_CARDS ∨
      some (retrieve_card_info c).1 = g.current_active_color ∨
      (retrieve_card_info c).2 = (retrieve_card_info top).2) :
    process_turn p (some "play_card") (some c) flag g
      = pt_play_commit p c
          { g with
            event := none,
            discard_pile := g.discard_pile ++ [c],
            player_cards := dictSet g.player_cards p (hand.erase c) } := by
  simp only [process_turn, hidx]
  rw [if_neg (by decide : ¬ ("play_card" = "draw_card_from_middle")), if_true]
  simp only [pt_play_card, hp, hhand, htop]
  rw [if_neg (by simp : ¬ p ≠ p), if_neg (by simpa using hc), if_pos hcond]

/-- When the legality condition fails, the room is returned unchanged
except for the cleared pending event. -/
theorem process_turn_play_rejected (g : Game) (i : Nat) (p c top : String)
    (hand : List String) (flag : Bool)
    (hidx : g.current_player_index = some i)
    (hp : g.players.get? i = some p)
    (hhand : dictGet g.player_cards p = some hand)
    (htop : g.discard_pile.getLast? = some top)
    (hcond : ¬ (c ∈ WILD_CARDS ∨
      some (retrieve_card_info c).1 = g.current_active_color ∨
      (retrieve_card_info c).2 = (retrieve_card_info top).2)) :
    process_turn p (some "play_card") (some c) flag g
      = some { g with event := none } := by
  simp only [process_turn, hidx]
  rw [if_neg (by decide : ¬ ("play_card" = "draw_card_from_middle")), if_true]
  simp only [pt_play_card, hp, hhand, htop]
  rw [if_neg (by simp : ¬ p ≠ p)]
  by_cases hch : c ∈ hand
  · rw [if_neg (by simpa using hch), if_neg hcond]
  · rw [if_pos (by simpa using hch)]

/-- `pt_play_effects` never touches the discard pile. -/
theorem pt_play_effects_discard (cur c : String) {g3 g' : Game}
    (h : pt_play_effects cur c g3 = some g') :
    g'.discard_pile = g3.discard_pile := by
  simp only [pt_play_effects] at h
  split at h
  next hspecial =>
    split at h
    next hS =>
      split at h
      · exact Option.noConfusion h
      next newi hnewi =>
        split at h
        · exact Option.noConfusion h
        next skipped hskip =>
          cases h
          rcases hx : (set_event (advance_turn g3) "skip" none
              (some skipped)).current_player_index with _ | j <;>
            rcases hy : g3.current_player_index with _ | k <;>
            simp [advance_turn, set_event, hx, hy]
    next hS =>
      split at h
      next hR =>
        cases h
        rcases hy : g3.current_player_index with _ | k <;>
          simp [advance_turn, set_event, reverse_direction, hy]
      next hR =>
        split at h
        next hD2 =>
          split at h
          · exact Option.noConfusion h
          next idx hidx =>
            split at h
            · exact Option.noConfusion h
            next victim hvic =>
              split at h
              · exact Option.noConfusion h
              next vh hvh =>
                cases h
                rcases hy : g3.current_player_index with _ | k <;>
                  simp [advance_turn, set_event, hy]
        next hD2 =>
          cases h
          rcases hy : g3.current_player_index with _ | k <;>
            simp [advance_turn, hy]
  next hspecial =>
    split at h
    next hwild =>
      split at h
      next hw1 =>
        cases h; rfl
      next hw1 =>
        split at h
        next hw2 =>
          cases h; rfl
        next hw2 =>
          cases h
          rcases hy : g3.current_player_index with _ | k <;>
            simp [advance_turn, hy]
    next hwild =>
      cases h
      rcases hy : g3.current_player_index with _ | k <;>
        simp [advance_turn, hy]

/-- `pt_play_commit` never touches the discard pile either: the card
was already placed on the pile before it is called. -/
theorem pt_play_commit_discard (cur c : String) {g1 g' : Game}
    (h : pt_play_commit cur c g1 = some g') :
    g'.discard_pile = g1.discard_pile := by
  simp only [pt_play_commit] at h
  split at h
  · exact Option.noConfusion h
  next hand2 hhand2 =>
    split at h
    · cases h; rfl
    next hwin =>
      refine (pt_play_effects_discard cur c h).trans ?_
      split <;> rfl

/-! ### Claims -/

/-- **C1.** For every room in state Playing, after start and after every
`process_turn` action (draw, play, color choice, draw2/draw4 penalty),
the total number of cards in the deck plus the discard pile plus all
players' hands equals 108; no card is created, lost, or duplicated by
any Turn Engine operation.  Formally: (a) `start_game` on a fresh room
(empty discard pile, nobody already `playing`) and a permutation of the
108-card deck leaves the room's pooled card multiset equal to that deck,
so the count is 108; (b) every successful `process_turn` preserves the
pooled card multiset exactly, and with it the count. -/
theorem C1_card_conservation :
    (∀ (sh : List String) (col : String) (si : Nat) (g g' : Game),
        g.players.Nodup → g.discard_pile = [] →
        sh.Perm create_deck_base →
        "playing" ∉ g.player_states.map Prod.snd →
        start_game sh col si g = Except.ok g' →
        allCards g' = (create_deck_base : Multiset String) ∧
          totalCards g' = 108) ∧
    (∀ (pid : String) (action card : Option String) (flag : Bool)
        (g g' : Game), g.players.Nodup →
        process_turn pid action card flag g = some g' →
        allCards g' = allCards g ∧ totalCards g' = totalCards g) := by
  constructor
  · intro sh col si g g' hnd hdp hperm hnp h
    have h1 := start_game_allCards sh col si hnd hdp hnp h
    have hsh : (sh : Multiset String) = (create_deck_base : Multiset String) :=
      Multiset.coe_eq_coe.mpr hperm
    refine ⟨h1.trans hsh, ?_⟩
    rw [← card_allCards, h1, hsh, Multiset.coe_card, create_deck_base_length]
  · intro pid action card flag g g' hnd h
    have h1 := process_turn_conserves pid action card flag hnd h
    exact ⟨h1, by rw [← card_allCards, h1, card_allCards]⟩

/-- Witness for C1: starting the 2-player fixture room on the
(unshuffled) 108-card deck yields a room holding 108 cards, and a
concrete draw action preserves the fixture room's card count. -/
theorem C1_card_conservation_witness :
    totalCards exStarted = 108 ∧ totalCards exDrawn = totalCards exG := by
  constructor
  · exact (C1_card_conservation.1 create_deck_base "R" 1 exWait exStarted
      (by decide) rfl (List.Perm.refl _) (by decide) rfl).2
  · exact (C1_card_conservation.2 "p1" (some "draw_card_from_middle") none
      true exG exDrawn (by decide) rfl).2

/-- **C2 counterexample.**  The claim says rank matching is by full
rank, so a DrawTwo must never match a plain 2.  In the fixture room the
top card is `B-2`, the active color is green, and `p1` holds `R-D2`:
the claim's legality predicate rejects the play (not wild, wrong color,
rank `"D2" ≠ "2"`), yet the code commits it to the discard pile —
`retrieve_card_info` compares only the LAST character, and
`card[-1] = '2'` for both cards. -/
theorem C2_counterexample :
    (process_turn "p1" (some "play_card") (some "R-D2") true exG).map
        Game.discard_pile = some ["B-2", "R-D2"] ∧
    spec_play_legal "R-D2" "B-2" (some "G") = false := by decide

/-- **C2 (amended).**  For a Playing room, current player `p`, and card
`c` in `p`'s hand, whenever `process_turn(play_card)` completes, the
card is accepted (moved onto the discard pile) iff `c` is a wild card,
or `c`'s color equals `active_color`, or the LAST CHARACTER of `c`'s
encoding equals the last character of the discard-top's encoding — so
a DrawTwo rank-matches a plain 2, and a number 4 matches a WildDrawFour
top, contrary to the original claim's "never cross-rank". -/
theorem C2_play_acceptance (g g' : Game) (i : Nat) (p c top : String)
    (hand : List String) (flag : Bool)
    (hidx : g.current_player_index = some i)
    (hp : g.players.get? i = some p)
    (hhand : dictGet g.player_cards p = some hand)
    (hc : c ∈ hand)
    (htop : g.discard_pile.getLast? = some top)
    (hrun : process_turn p (some "play_card") (some c) flag g = some g') :
    g'.discard_pile = g.discard_pile ++ [c] ↔
      (c ∈ WILD_CARDS ∨
        some (retrieve_card_info c).1 = g.current_active_color ∨
        (retrieve_card_info c).2 = (retrieve_card_info top).2) := by
  by_cases hcond : (c ∈ WILD_CARDS ∨
      some (retrieve_card_info c).1 = g.current_active_color ∨
      (retrieve_card_info c).2 = (retrieve_card_info top).2)
  · rw [process_turn_play_accepted g i p c top hand flag hidx hp hhand hc
      htop hcond] at hrun
    have hd := pt_play_commit_discard p c hrun
    exact iff_of_true hd hcond
  · rw [process_turn_play_rejected g i p c top hand flag hidx hp hhand
      htop hcond] at hrun
    injection hrun with hrun
    subst hrun
    constructor
    · intro hdisc
      exfalso
      have := congrArg List.length hdisc
      simp at this
    · intro hcc
      exact absurd hcc hcond

/-- Witness for C2: the amended acceptance criterion applied to the
fixture play of `R-D2` on `B-2` under active color green. -/
theorem C2_play_acceptance_witness :
    exPlayed.discard_pile = exG.discard_pile ++ ["R-D2"] ↔
      ("R-D2" ∈ WILD_CARDS ∨
        some (retrieve_card_info "R-D2").1 = exG.current_active_color ∨
        (retrieve_card_info "R-D2").2 = (retrieve_card_info "B-2").2) :=
  C2_play_acceptance exG exPlayed 0 "p1" "R-D2" "B-2" ["R-D2", "R-5"] true
    rfl rfl rfl (by decide) rfl rfl

/-- **C9.**  `advance_turn_counter` computes
`(index + direction) mod player_count` with correct wraparound in both
directions, stays in range, and one step forward then one step back (or
vice versa) returns to the original index. -/
theorem C9_advance_turn_counter (i n : Nat) (b : Bool) (h : i < n) :
    advance_turn_counter i n b < n ∧
    (advance_turn_counter i n b : Int) =
      ((i : Int) + (if b then 1 else -1)) % (n : Int) ∧
    advance_turn_counter (advance_turn_counter i n b) n (!b) = i := by
  refine ⟨?_, ?_, ?_⟩
  · cases b <;> simp only [advance_turn_counter, Bool.false_eq_true,
      eq_self_iff_true, if_true, if_false] <;> split_ifs <;> omega
  · cases b
    · simp only [advance_turn_counter, Bool.false_eq_true, if_false]
      split_ifs with h1
      · subst h1
        have key : ((0 : Int) + -1) % (n : Int) = (n : Int) - 1 := by
          have h2 : ((0 : Int) + -1) = ((n : Int) - 1) + (n : Int) * (-1) := by
            ring
          rw [h2, Int.add_mul_emod_self_left,
            Int.emod_eq_of_lt (by omega) (by omega)]
        simp only [Nat.cast_zero]
        rw [key]
        omega
      · rw [Int.emod_eq_of_lt (by omega) (by omega)]
        omega
    · simp only [advance_turn_counter, eq_self_iff_true, if_true]
      split_ifs with h1
      · have h2 : (i : Int) + 1 = (n : Int) := by omega
        rw [h2, Int.emod_self]
        rfl
      · rw [Int.emod_eq_of_lt (by omega) (by omega)]
        omega
  · cases b
    · by_cases h1 : i = 0 <;>
        simp only [advance_turn_counter, Bool.not_false, Bool.false_eq_true,
          eq_self_iff_true, if_true, if_false, h1] <;>
        split <;> omega
    · by_cases h1 : i = n - 1 <;>
        simp only [advance_turn_counter, Bool.not_true, Bool.false_eq_true,
          eq_self_iff_true, if_true, if_false, h1] <;>
        split <;> omega

/-- Witness for C9 at index 2 of a 3-player clockwise room. -/
theorem C9_advance_turn_counter_witness :
    advance_turn_counter 2 3 true < 3 ∧
    (advance_turn_counter 2 3 true : Int) =
      ((2 : Int) + (if true then 1 else -1)) % (3 : Int) ∧
    advance_turn_counter (advance_turn_counter 2 3 true) 3 (!true) = 2 :=
  C9_advance_turn_counter 2 3 true (by decide)

/-- **C8 counterexample.**  `exFull` is a Waiting room with 10 players,
`p3` among them, yet `join_game` raises "Game is full." — the full-room
check precedes the membership check, so the claimed idempotence at 10
players fails. -/
theorem C8_counterexample :
    "p3" ∈ exFull.players ∧ exFull.players.length = 10 ∧
    exFull.state = "waiting" ∧
    join_game exFull "p3" "C" =
      Except.error "Game is full. Try again later." :=
  ⟨by decide, by decide, rfl, rfl⟩

/-- **C8 (amended).**  For a Waiting room, `join_game` is idempotent for
an existing member only while the room holds fewer than 10 players; at
10 or more players the room-full check fires before the membership
check, so it raises RoomFullError even for existing members. -/
theorem C8_join_idempotent :
    (∀ (g : Game) (uid name : String), g.state = "waiting" →
      g.players.length < 10 → uid ∈ g.players →
      join_game g uid name = Except.ok g) ∧
    (∀ (g : Game) (uid name : String), g.state = "waiting" →
      10 ≤ g.players.length →
      join_game g uid name =
        Except.error "Game is full. Try again later.") := by
  constructor
  · intro g uid name hst hlen hmem
    unfold join_game
    rw [if_neg (by simp [hst]), if_neg (by omega),
      if_neg (by simpa using hmem)]
  · intro g uid name hst hlen
    unfold join_game
    rw [if_neg (by simp [hst]), if_pos hlen]

/-- Witness for C8 (amended): a member re-joining a 2-player room is a
no-op, while any join attempt on the full fixture room errors. -/
theorem C8_join_idempotent_witness :
    join_game exWait "p1" "Alice" = Except.ok exWait ∧
    join_game exFull "p2" "B" =
      Except.error "Game is full. Try again later." :=
  ⟨C8_join_idempotent.1 exWait "p1" "Alice" rfl (by decide) (by decide),
   C8_join_idempotent.2 exFull "p2" "B" rfl (by decide)⟩

theorem mem_keys_dictSet {α : Type} (d : List (String × α)) (k q : String)
    (v : α) (h : q ∈ (dictSet d k v).map Prod.fst) :
    q ∈ d.map Prod.fst ∨ q = k := by
  induction d with
  | nil =>
      simp only [dictSet, List.map_cons, List.map_nil,
        List.mem_singleton] at h
      exact Or.inr h
  | cons e rest ih =>
      obtain ⟨k', v'⟩ := e
      rcases eq_or_ne k' k with rfl | hk
      · simp only [dictSet, eq_self_iff_true, if_true, List.map_cons,
          List.mem_cons] at h
        rcases h with rfl | h2
        · exact Or.inr rfl
        · exact Or.inl (List.mem_cons_of_mem _ h2)
      · simp only [dictSet, if_neg hk, List.map_cons, List.mem_cons] at h
        rcases h with rfl | h2
        · exact Or.inl (List.mem_cons_self _ _)
        · rcases ih h2 with h3 | h3
          · exact Or.inl (List.mem_cons_of_mem _ h3)
          · exact Or.inr h3

theorem dictSet_keys_nodup {α : Type} (d : List (String × α)) (k : String)
    (v : α) (h : (d.map Prod.fst).Nodup) :
    ((dictSet d k v).map Prod.fst).Nodup := by
  induction d with
  | nil => simp [dictSet]
  | cons e rest ih =>
      obtain ⟨k', v'⟩ := e
      simp only [List.map_cons, List.nodup_cons] at h
      rcases eq_or_ne k' k with rfl | hk
      · simpa [dictSet] using h
      · simp only [dictSet, if_neg hk, List.map_cons, List.nodup_cons]
        refine ⟨?_, ih h.2⟩
        intro hmem
        rcases mem_keys_dictSet rest k k' v hmem with h3 | h3
        · exact h.1 h3
        · exact hk h3

theorem dictMem_false_get {α : Type} {d : List (String × α)} {k : String}
    (h : ¬ dictMem d k = true) : dictGet d k = none := by
  cases hx : dictGet d k with
  | none => rfl
  | some v => exact absurd (by simp [dictMem, hx]) h

/-- **C7 counterexample.**  Removing `p2` from the fixture room cleans
`players`, `player_names` and `player_states`, but `p2`'s hand entry
stays in `player_cards` — the claim that leave removes the participant
from all four member-keyed structures is false. -/
theorem C7_counterexample :
    (dictGet (remove_player exGames "ABCD" "p2") "ABCD").map
        (fun g' => (g'.players.contains "p2", dictGet g'.player_names "p2",
          dictGet g'.player_states "p2", dictGet g'.player_cards "p2"))
      = some (false, none, none, some ["B-7"]) := by decide

/-- **C7 (amended).**  `remove_player` removes a member from `players`,
`player_names` and `player_states`, reassigns the host to the first
remaining player when the host leaves, and deletes the room when the
last player leaves — but it leaves the member's `player_cards` entry in
place (`g'.player_cards = g.player_cards`). -/
theorem C7_remove_player (games : List (String × Game)) (gid uid : String)
    (g : Game)
    (hg : dictGet games gid = some g)
    (hmem : uid ∈ g.players)
    (hnd : g.players.Nodup)
    (hkeysg : (games.map Prod.fst).Nodup)
    (hkn : (g.player_names.map Prod.fst).Nodup)
    (hks : (g.player_states.map Prod.fst).Nodup) :
    uid ∉ g.players.erase uid ∧
    (g.players.erase uid ≠ [] →
      (dictGet (remove_player games gid uid) gid).map
          (fun g' => (g'.players, dictGet g'.player_names uid,
            dictGet g'.player_states uid, g'.player_cards, g'.host_id))
        = some (g.players.erase uid, none, none, g.player_cards,
            if uid = g.host_id then (g.players.erase uid).headD ""
            else g.host_id)) ∧
    (g.players.erase uid = [] →
      dictGet (remove_player games gid uid) gid = none) := by
  have hnotmem : uid ∉ g.players.erase uid := by
    intro hx
    exact ((List.Nodup.mem_erase_iff hnd).mp hx).1 rfl
  refine ⟨hnotmem, ?_, ?_⟩
  · intro herase
    have hpos : 0 < (g.players.erase uid).length :=
      List.length_pos.mpr herase
    have hlen : ¬ (g.players.erase uid).length = 0 := by omega
    by_cases hm : dictMem g.player_names uid = true <;>
      by_cases hh : uid = g.host_id
    · simp only [remove_player, hg, hm, if_true, if_pos hmem,
        if_pos (show uid = g.host_id ∧ 0 < (g.players.erase uid).length
          from ⟨hh, hpos⟩),
        if_neg hlen, dictGet_dictSet]
      rw [if_pos hh]
      simp [dictGet_dictDel _ _ _ hkn, dictGet_dictDel _ _ _ hks]
    · simp only [remove_player, hg, hm, if_true, if_pos hmem,
        if_neg (show ¬ (uid = g.host_id ∧
            0 < (g.players.erase uid).length)
          from fun hand => hh hand.1),
        if_neg hlen, dictGet_dictSet]
      rw [if_neg hh]
      simp [dictGet_dictDel _ _ _ hkn, dictGet_dictDel _ _ _ hks]
    · simp only [remove_player, hg, hm, Bool.false_eq_true, if_false,
        if_pos hmem,
        if_pos (show uid = g.host_id ∧ 0 < (g.players.erase uid).length
          from ⟨hh, hpos⟩),
        if_neg hlen, dictGet_dictSet]
      rw [if_pos hh]
      simp [dictGet_dictDel _ _ _ hks, dictMem_false_get hm]
    · simp only [remove_player, hg, hm, Bool.false_eq_true, if_false,
        if_pos hmem,
        if_neg (show ¬ (uid = g.host_id ∧
            0 < (g.players.erase uid).length)
          from fun hand => hh hand.1),
        if_neg hlen, dictGet_dictSet]
      rw [if_neg hh]
      simp [dictGet_dictDel _ _ _ hks, dictMem_false_get hm]
  · intro herase
    have hlen : (g.players.erase uid).length = 0 := by rw [herase]; rfl
    have hnand : ¬ (uid = g.host_id ∧
        0 < (g.players.erase uid).length) := by
      rw [herase]
      simp
    by_cases hm : dictMem g.player_names uid = true
    · simp only [remove_player, hg, hm, if_true, if_pos hmem,
        if_neg hnand, if_pos hlen]
      rw [dictGet_dictDel _ _ _ (dictSet_keys_nodup games gid _ hkeysg),
        if_pos rfl]
    · simp only [remove_player, hg, hm, Bool.false_eq_true, if_false,
        if_pos hmem, if_neg hnand, if_pos hlen]
      rw [dictGet_dictDel _ _ _ (dictSet_keys_nodup games gid _ hkeysg),
        if_pos rfl]

/-- Witness for C7 (amended): removing `p2` from the fixture table. -/
theorem C7_remove_player_witness :
    "p2" ∉ exG.players.erase "p2" ∧
    (dictGet (remove_player exGames "ABCD" "p2") "ABCD").map
        (fun g' => (g'.players, dictGet g'.player_names "p2",
          dictGet g'.player_states "p2", g'.player_cards, g'.host_id))
      = some (exG.players.erase "p2", none, none, exG.player_cards,
          if "p2" = exG.host_id then (exG.players.erase "p2").headD ""
          else exG.host_id) := by
  obtain ⟨h1, h2, h3⟩ := C7_remove_player exGames "ABCD" "p2" exG rfl
    (by decide) (by decide) (by decide) (by decide) (by decide)
  exact ⟨h1, h2 (by decide)⟩

/-- **C4.**  When the current player `p` legally plays a Skip (value
`"S"`, not their last card) in a room of 3 or more players, the turn
advances twice in total — the resulting `current_player_index` is two
seats ahead of `p` in the current direction — and the emitted `skip`
event names the player immediately next to `p` (the one who is
skipped), not the player the turn lands on. -/
theorem C4_skip (g g' : Game) (i : Nat) (p c top skipped : String)
    (hand : List String) (flag : Bool)
    (hn : 3 ≤ g.players.length)
    (hidx : g.current_player_index = some i)
    (hp : g.players.get? i = some p)
    (hhand : dictGet g.player_cards p = some hand)
    (hc : c ∈ hand)
    (htop : g.discard_pile.getLast? = some top)
    (hcond : c ∈ WILD_CARDS ∨
      some (retrieve_card_info c).1 = g.current_active_color ∨
      (retrieve_card_info c).2 = (retrieve_card_info top).2)
    (hS : (retrieve_card_info c).2 = "S")
    (hnotlast : hand.erase c ≠ [])
    (hskip : g.players.get?
        (advance_turn_counter i g.players.length (g.direction = 1))
      = some skipped)
    (hrun : process_turn p (some "play_card") (some c) flag g = some g') :
    g'.current_player_index = some (advance_turn_counter
      (advance_turn_counter i g.players.length (g.direction = 1))
      g.players.length (g.direction = 1)) ∧
    g'.event = some ⟨"skip", none, some skipped⟩ := by
  have hwild : c ∉ WILD_CARDS := by
    intro hw
    rcases (by simpa [WILD_CARDS] using hw : c = "W-Wild" ∨ c = "W-W4")
      with rfl | rfl <;> exact absurd hS (by decide)
  rw [process_turn_play_accepted g i p c top hand flag hidx hp hhand hc
    htop hcond] at hrun
  simp only [pt_play_commit, set_event, dictGet_dictSet,
    eq_self_iff_true, if_true] at hrun
  rw [if_neg (by simpa [List.length_eq_zero] using hnotlast),
    if_pos hwild] at hrun
  simp only [pt_play_effects] at hrun
  rw [if_pos (Or.inl (by rw [hS]; decide)), if_pos hS] at hrun
  simp only [advance_turn, hidx, set_event] at hrun
  rw [hskip] at hrun
  injection hrun with hrun
  subst hrun
  simp [advance_turn, set_event]

/-- Witness for C4: `p1` plays the green Skip `G-S` in the fixture
room; the turn lands on `p3` (index 2) and the event names `p2`. -/
theorem C4_skip_witness :
    exSkipPlayed.current_player_index = some (advance_turn_counter
      (advance_turn_counter 0 exSkipG.players.length (exSkipG.direction = 1))
      exSkipG.players.length (exSkipG.direction = 1)) ∧
    exSkipPlayed.event = some ⟨"skip", none, some "p2"⟩ :=
  C4_skip exSkipG exSkipPlayed 0 "p1" "G-S" "B-2" "p2" ["G-S", "R-5"] true
    (by decide) rfl rfl rfl (by decide) rfl (by decide) (by decide)
    (by decide) rfl rfl

/-- **C5.**  When the current player plays a legal card and their hand
becomes empty, a `win` event naming that player is emitted and
processing stops: the turn does not advance, `active_color` is not
updated, the direction is not flipped, the deck is untouched (no
skip/draw2/wild effect runs), and the card still reaches the discard
pile. -/
theorem C5_win (g g' : Game) (i : Nat) (p c top : String)
    (hand : List String) (flag : Bool)
    (hidx : g.current_player_index = some i)
    (hp : g.players.get? i = some p)
    (hhand : dictGet g.player_cards p = some hand)
    (hc : c ∈ hand)
    (htop : g.discard_pile.getLast? = some top)
    (hcond : c ∈ WILD_CARDS ∨
      some (retrieve_card_info c).1 = g.current_active_color ∨
      (retrieve_card_info c).2 = (retrieve_card_info top).2)
    (hlast : hand.erase c = [])
    (hrun : process_turn p (some "play_card") (some c) flag g = some g') :
    g'.event = some ⟨"win", some p, none⟩ ∧
    g'.current_player_index = g.current_player_index ∧
    g'.current_active_color = g.current_active_color ∧
    g'.direction = g.direction ∧
    g'.deck = g.deck ∧
    g'.discard_pile = g.discard_pile ++ [c] ∧
    dictGet g'.player_cards p = some [] := by
  rw [process_turn_play_accepted g i p c top hand flag hidx hp hhand hc
    htop hcond] at hrun
  simp only [pt_play_commit, set_event, dictGet_dictSet,
    eq_self_iff_true, if_true] at hrun
  rw [if_pos (by rw [hlast]; rfl)] at hrun
  injection hrun with hrun
  subst hrun
  simp [dictGet_dictSet, hlast]

/-- Witness for C5: `p1` plays their last card `G-5` in the one-card
fixture room. -/
theorem C5_win_witness :
    exWinPlayed.event = some ⟨"win", some "p1", none⟩ ∧
    exWinPlayed.current_player_index = exWinG.current_player_index ∧
    exWinPlayed.current_active_color = exWinG.current_active_color ∧
    exWinPlayed.direction = exWinG.direction ∧
    exWinPlayed.deck = exWinG.deck ∧
    exWinPlayed.discard_pile = exWinG.discard_pile ++ ["G-5"] ∧
    dictGet exWinPlayed.player_cards "p1" = some [] :=
  C5_win exWinG exWinPlayed 0 "p1" "G-5" "B-2" ["G-5"] true rfl rfl rfl
    (by decide) rfl (by decide) (by decide) rfl

theorem advance_lt (i n : Nat) (b : Bool) (h : i < n) :
    advance_turn_counter i n b < n := by
  cases b <;> simp only [advance_turn_counter, Bool.false_eq_true,
    eq_self_iff_true, if_true, if_false] <;> split_ifs <;> omega

theorem advance_ne (i n : Nat) (b : Bool) (h : i < n) (hn : 2 ≤ n) :
    advance_turn_counter i n b ≠ i := by
  cases b <;> simp only [advance_turn_counter, Bool.false_eq_true,
    eq_self_iff_true, if_true, if_false] <;> split_ifs <;> omega

/-- **C3 counterexample.**  In the fixture room `p1` plays `R-D2`
(direction clockwise): the victim is `p2` at index 1, `p2` draws 2, the
`draw2` event names `p1` and `p2` — but the resulting
`current_player_index` is 1, i.e. the turn lands ON the victim, not on
index 2 (the player after the victim) as the claim requires. -/
theorem C3_counterexample :
    (process_turn "p1" (some "play_card") (some "R-D2") true exG).map
        (fun g' => (g'.current_player_index, g'.event))
      = some (some 1, some ⟨"draw2", some "p1", some "p2"⟩) ∧
    exG.players.get? 1 = some "p2" ∧
    ¬ ((process_turn "p1" (some "play_card") (some "R-D2") true exG).map
        (fun g' => g'.current_player_index) = some (some 2)) :=
  ⟨by decide, by decide, by decide⟩

/-- **C3 (amended).**  For a Playing room with at least 3 players, when
the current player `p` successfully plays a DrawTwo (not as their last
card), the victim is the player one step ahead in the current
direction, the victim's hand gains 2 cards from the deck, and the
`draw2` event names actor and victim; the turn then advances exactly
once FROM THE ACTOR, so the resulting current player IS the victim —
the victim is not skipped. -/
theorem C3_drawtwo (g g' : Game) (i : Nat) (p c top victim : String)
    (hand vh : List String) (flag : Bool)
    (hn : 3 ≤ g.players.length) (hnd : g.players.Nodup)
    (hidx : g.current_player_index = some i)
    (hp : g.players.get? i = some p)
    (hhand : dictGet g.player_cards p = some hand)
    (hc : c ∈ hand)
    (htop : g.discard_pile.getLast? = some top)
    (hcond : c ∈ WILD_CARDS ∨
      some (retrieve_card_info c).1 = g.current_active_color ∨
      (retrieve_card_info c).2 = (retrieve_card_info top).2)
    (hvS : (retrieve_card_info c).2 ≠ "S")
    (hvR : (retrieve_card_info c).2 ≠ "R")
    (hd2 : strDrop c 2 = "D2")
    (hnotlast : hand.erase c ≠ [])
    (hvic : g.players.get?
        (advance_turn_counter i g.players.length (g.direction = 1))
      = some victim)
    (hvh : dictGet g.player_cards victim = some vh)
    (hdeck : 2 ≤ g.deck.length)
    (hrun : process_turn p (some "play_card") (some c) flag g = some g') :
    g'.current_player_index = some
      (advance_turn_counter i g.players.length (g.direction = 1)) ∧
    g.players.get?
        (advance_turn_counter i g.players.length (g.direction = 1))
      = some victim ∧
    g'.event = some ⟨"draw2", some p, some victim⟩ ∧
    dictGet g'.player_cards victim = some (deal_cards 2 g.deck vh).2 ∧
    (deal_cards 2 g.deck vh).2.length = vh.length + 2 := by
  have hi : i < g.players.length := by
    rcases List.get?_eq_some.mp hp with ⟨h1, _⟩
    exact h1
  have hvicp : victim ≠ p := by
    intro he
    subst he
    exact advance_ne i g.players.length (g.direction = 1) hi (by omega)
      (List.get?_inj (advance_lt i _ _ hi) hnd (hvic.trans hp.symm))
  have hwild : c ∉ WILD_CARDS := by
    intro hw
    rcases (by simpa [WILD_CARDS] using hw : c = "W-Wild" ∨ c = "W-W4")
      with rfl | rfl <;> exact absurd hd2 (by decide)
  rw [process_turn_play_accepted g i p c top hand flag hidx hp hhand hc
    htop hcond] at hrun
  simp only [pt_play_commit, set_event, dictGet_dictSet,
    eq_self_iff_true, if_true] at hrun
  rw [if_neg (by simpa [List.length_eq_zero] using hnotlast),
    if_pos hwild] at hrun
  simp only [pt_play_effects] at hrun
  rw [if_pos (Or.inr (by rw [hd2]; decide)), if_neg hvS, if_neg hvR,
    if_pos hd2] at hrun
  simp only [hidx, dictGet_dictSet] at hrun
  simp only [hvic] at hrun
  simp only [if_neg hvicp, hvh] at hrun
  injection hrun with hrun
  subst hrun
  refine ⟨?_, hvic, ?_, ?_, ?_⟩
  · simp [advance_turn, set_event, hidx]
  · simp [advance_turn, set_event]
  · simp [advance_turn, set_event, dictGet_dictSet]
  · rw [deal_cards_length]
    omega

/-- Witness for C3 (amended): `p1` plays `R-D2` in the fixture room;
`p2` is the victim and becomes the current player with 2 extra cards. -/
theorem C3_drawtwo_witness :
    exPlayed.current_player_index = some (advance_turn_counter 0
      exG.players.length (exG.direction = 1)) ∧
    exG.players.get? (advance_turn_counter 0 exG.players.length
      (exG.direction = 1)) = some "p2" ∧
    exPlayed.event = some ⟨"draw2", some "p1", some "p2"⟩ ∧
    dictGet exPlayed.player_cards "p2" =
      some (deal_cards 2 exG.deck ["B-7"]).2 ∧
    (deal_cards 2 exG.deck ["B-7"]).2.length = ["B-7"].length + 2 :=
  C3_drawtwo exG exPlayed 0 "p1" "R-D2" "B-2" "p2" ["R-D2", "R-5"]
    ["B-7"] true (by decide) (by decide) rfl rfl rfl (by decide) rfl
    (Or.inr (Or.inr (by decide))) (by decide) (by decide) (by decide)
    (by decide) (by decide) rfl (by decide) rfl

theorem advance_turn_index (g : Game) (i : Nat)
    (h : g.current_player_index = some i) :
    (advance_turn g).current_player_index =
      some (advance_turn_counter i g.players.length (g.direction = 1)) := by
  simp [advance_turn, h]

theorem advance_turn_color (g : Game) :
    (advance_turn g).current_active_color = g.current_active_color := by
  rcases h : g.current_player_index <;> simp [advance_turn, h]

theorem advance_turn_player_cards (g : Game) :
    (advance_turn g).player_cards = g.player_cards := by
  rcases h : g.current_player_index <;> simp [advance_turn, h]

theorem advance_turn_deck (g : Game) :
    (advance_turn g).deck = g.deck := by
  rcases h : g.current_player_index <;> simp [advance_turn, h]

theorem use_wild_card_player_cards (c : Option String) (g : Game) :
    (use_wild_card c g).player_cards = g.player_cards := by
  cases c with
  | none => exact advance_turn_player_cards g
  | some s =>
      simp only [use_wild_card]
      split
      · rw [advance_turn_player_cards]
      · exact advance_turn_player_cards g

theorem use_wild_card_deck (c : Option String) (g : Game) :
    (use_wild_card c g).deck = g.deck := by
  cases c with
  | none => exact advance_turn_deck g
  | some s =>
      simp only [use_wild_card]
      split
      · rw [advance_turn_deck]
      · exact advance_turn_deck g

theorem use_wild_card_index (c : Option String) (g : Game) (i : Nat)
    (h : g.current_player_index = some i) :
    (use_wild_card c g).current_player_index =
      some (advance_turn_counter i g.players.length (g.direction = 1)) := by
  cases c with
  | none => exact advance_turn_index g i h
  | some s =>
      simp only [use_wild_card]
      split
      · exact advance_turn_index _ i h
      · exact advance_turn_index _ i h

theorem use_wild_card_color_regular (s : String) (g : Game)
    (hcol : (retrieve_card_info s).1 ∈ REGULAR_CARDS) :
    (use_wild_card (some s) g).current_active_color =
      some (retrieve_card_info s).1 := by
  simp only [use_wild_card, if_pos hcol]
  rw [advance_turn_color]

/-- **C10.**  `process_turn` with action `change_color_with_wild` or
`change_color_with_wild_and_draw4` checks neither that the requesting
actor is the current player nor that a wild-color choice is pending:
(1) for ANY actor id and ANY room with a current-player index, the
wild-color action simply runs `use_wild_card` on the room (with the
pending event cleared); (2) when the supplied token starts with a
regular color, that `use_wild_card` call sets `active_color` to it and
advances the turn; (3) for ANY actor id, the draw4 action deals up to 4
cards from the deck to the post-advance current player and emits a
`draw4` event naming the (pre-advance) current player and that
victim. -/
theorem C10_wild_actions_unchecked :
    (∀ (actor ccard : String) (flag : Bool) (g : Game) (i : Nat),
      g.current_player_index = some i →
      process_turn actor (some "change_color_with_wild") (some ccard) flag g
        = some (use_wild_card (some ccard) { g with event := none })) ∧
    (∀ (ccard : String) (g : Game) (i : Nat),
      g.current_player_index = some i →
      (retrieve_card_info ccard).1 ∈ REGULAR_CARDS →
      (use_wild_card (some ccard)
          ({ g with event := none } : Game)).current_active_color
        = some (retrieve_card_info ccard).1 ∧
      (use_wild_card (some ccard)
          ({ g with event := none } : Game)).current_player_index
        = some (advance_turn_counter i g.players.length
            (g.direction = 1))) ∧
    (∀ (actor ccard : String) (flag : Bool) (g g' : Game) (i : Nat)
        (p victim : String) (vh : List String),
      g.current_player_index = some i →
      g.players.get? i = some p →
      g.players.get?
          (advance_turn_counter i g.players.length (g.direction = 1))
        = some victim →
      dictGet g.player_cards victim = some vh →
      process_turn actor (some "change_color_with_wild_and_draw4")
          (some ccard) flag g = some g' →
      g'.event = some ⟨"draw4", some p, some victim⟩ ∧
      g'.current_player_index =
        some (advance_turn_counter i g.players.length (g.direction = 1)) ∧
      dictGet g'.player_cards victim = some (deal_cards 4 g.deck vh).2 ∧
      (deal_cards 4 g.deck vh).2.length
        = vh.length + min 4 g.deck.length) := by
  refine ⟨?_, ?_, ?_⟩
  · intro actor ccard flag g i hidx
    simp only [process_turn, hidx]
    rw [if_neg (by decide : ¬ ("change_color_with_wild"
        = "draw_card_from_middle")),
      if_neg (by decide : ¬ ("change_color_with_wild" = "play_card")),
      if_true]
  · intro ccard g i hidx hcol
    exact ⟨use_wild_card_color_regular ccard _ hcol,
      use_wild_card_index (some ccard) _ i hidx⟩
  · intro actor ccard flag g g' i p victim vh hidx hp hvic hvh hrun
    have h0idx : ({ g with
        current_player_index := some i,
        event := none } : Game).current_player_index = some i := rfl
    simp only [process_turn, hidx] at hrun
    rw [if_neg (by decide : ¬ ("change_color_with_wild_and_draw4"
        = "draw_card_from_middle")),
      if_neg (by decide : ¬ ("change_color_with_wild_and_draw4"
        = "play_card")),
      if_neg (by decide : ¬ ("change_color_with_wild_and_draw4"
        = "change_color_with_wild")),
      if_true] at hrun
    simp only [pt_wild4, hp] at hrun
    simp only [use_wild_card_index (some ccard)
        { g with
          current_player_index := some i,
          event := none } i h0idx,
      use_wild_card_players, use_wild_card_player_cards,
      use_wild_card_deck] at hrun
    simp only [hvic] at hrun
    simp only [hvh] at hrun
    injection hrun with hrun
    subst hrun
    refine ⟨by simp [set_event], ?_, ?_, ?_⟩
    · simp [set_event, use_wild_card_index (some ccard)
        { g with
          current_player_index := some i,
          event := none } i h0idx]
    · simp [set_event, use_wild_card_player_cards, use_wild_card_deck,
        dictGet_dictSet]
    · rw [deal_cards_length]

/-- Witness for C10: in the fixture room, an unrelated actor id `zzz`
(not even a member) successfully changes the color and, in the draw4
case, makes `p2` draw 4 cards. -/
theorem C10_wild_actions_unchecked_witness :
    (process_turn "zzz" (some "change_color_with_wild") (some "B") true exG
      = some (use_wild_card (some "B") { exG with event := none })) ∧
    ((use_wild_card (some "B")
        ({ exG with event := none } : Game)).current_active_color
      = some (retrieve_card_info "B").1) ∧
    (exDraw4.event = some ⟨"draw4", some "p1", some "p2"⟩ ∧
      dictGet exDraw4.player_cards "p2"
        = some (deal_cards 4 exG.deck ["B-7"]).2) := by
  refine ⟨?_, ?_, ?_, ?_⟩
  · exact C10_wild_actions_unchecked.1 "zzz" "B" true exG 0 rfl
  · exact (C10_wild_actions_unchecked.2.1 "B" exG 0 rfl (by decide)).1
  · exact (C10_wild_actions_unchecked.2.2 "zzz" "B" true exG exDraw4 0
      "p1" "p2" ["B-7"] rfl rfl (by decide) rfl rfl).1
  · exact (C10_wild_actions_unchecked.2.2 "zzz" "B" true exG exDraw4 0
      "p1" "p2" ["B-7"] rfl rfl (by decide) rfl rfl).2.2.1

theorem mapM_option_congr {α β : Type} (l : List α) (f f' : α → Option β)
    (h : ∀ x ∈ l, f x = f' x) : l.mapM f = l.mapM f' := by
  induction l with
  | nil => rfl
  | cons a t ih =>
      simp only [List.mapM_cons, h a (List.mem_cons_self a t),
        ih (fun x hx => h x (List.mem_cons_of_mem a hx))]

/-- **C6.**  The per-recipient projection contains the recipient's own
hand in full and only hand SIZES for everyone else; consequently the
message delivered to recipient `r` is invariant under any change to the
other participants' hand contents that preserves each hand's length
(and presence) — two-run noninterference at the view boundary. -/
theorem C6_projection_noninterference (g1 g2 : Game) (r gid ev : String)
    (hplayers : g1.players = g2.players)
    (hidx : g1.current_player_index = g2.current_player_index)
    (hcolor : g1.current_active_color = g2.current_active_color)
    (hdir : g1.direction = g2.direction)
    (hdiscard : g1.discard_pile = g2.discard_pile)
    (hevent : g1.event = g2.event)
    (hstates : g1.player_states = g2.player_states)
    (hown : dictGet g1.player_cards r = dictGet g2.player_cards r)
    (hothers : ∀ q, q ≠ r →
      (dictGet g1.player_cards q).map List.length
        = (dictGet g2.player_cards q).map List.length) :
    build_projection g1 gid ev r = build_projection g2 gid ev r := by
  have hpt : ∀ q, q ≠ r →
      (dictGet g1.player_cards q).map (fun h => (q, h.length))
        = (dictGet g2.player_cards q).map (fun h => (q, h.length)) := by
    intro q hq
    have hl := hothers q hq
    cases h1 : dictGet g1.player_cards q <;>
      cases h2 : dictGet g2.player_cards q <;>
      simp [h1, h2] at hl ⊢
    exact hl
  have hmapq := mapM_option_congr (g2.players.filter (fun q => q ≠ r))
    (fun q => (dictGet g1.player_cards q).map (fun h => (q, h.length)))
    (fun q => (dictGet g2.player_cards q).map (fun h => (q, h.length)))
    (fun q hq => hpt q (by
      have := (List.mem_filter.mp hq).2
      exact of_decide_eq_true this))
  have hhand : dictGetD g1.player_cards r ([] : List String)
      = dictGetD g2.player_cards r [] := by
    simp [dictGetD, hown]
  unfold build_projection
  rw [hidx, hplayers, hcolor, hdir, hdiscard, hevent, hstates, hhand,
    hmapq]

/-- Witness for C6: swapping `p3`'s single card for a different single
card leaves `p2`'s projection unchanged. -/
theorem C6_projection_noninterference_witness :
    build_projection exG "ABCD" "game_update" "p2"
      = build_projection exGalt "ABCD" "game_update" "p2" := by
  apply C6_projection_noninterference exG exGalt "p2" "ABCD" "game_update"
    rfl rfl rfl rfl rfl rfl rfl rfl
  intro q hq
  simp only [exG, exGalt, dictGet]
  split_ifs <;> rfl

end UNO
